import Mathlib

/-!
Shallow embedding of the STM32 USART bootloader protocol client
(`src/stm_device/mod.rs`, `src/stm_device/protocol/mod.rs`,
`src/stm_device/protocol/command.rs`).

Bytes are modelled as `Nat`; wherever the Rust code performs `u8`
arithmetic that can wrap, the wrap is made explicit with `% 256`.
The serial port is modelled as a list of pending read events (a byte
arriving, or a transport-level read failure such as a timeout) plus a
log of all bytes written; `write_all` appends to the log (write faults
are not injected by this model — transport faults are injected on the
read side), and `read_exact` consumes events from the front.
-/

deriving instance DecidableEq for Except

namespace Stm

/-- A byte value; the Rust code uses `u8`, so meaningful values are `< 256`. -/
abbrev Byte := Nat

/-- `const ACK: u8 = 0x79`. -/
def ACK : Byte := 0x79

/-- `const NACK: u8 = 0x1F`. -/
def NACK : Byte := 0x1F

/-- Rust `!b` on a `u8`: bitwise complement. -/
def complByte (b : Byte) : Byte := b ^^^ 0xFF

/-- `CommonCommand` from `protocol/command.rs`. -/
inductive CommonCommand where
  | get
  | getVersion
  | getId
  | readMemory
  | go
  | writeMemory
  | extendedErase
  | writeProtect
  deriving DecidableEq

/-- The `#[repr(u8)]` discriminants of `CommonCommand`. -/
def CommonCommand.toByte : CommonCommand → Byte
  | .get => 0x00
  | .getVersion => 0x01
  | .getId => 0x02
  | .readMemory => 0x11
  | .go => 0x21
  | .writeMemory => 0x31
  | .extendedErase => 0x44
  | .writeProtect => 0x63

/-- `TryFromPrimitive` for `CommonCommand`. -/
def CommonCommand.tryFrom (b : Byte) : Option CommonCommand :=
  if b = 0x00 then some .get
  else if b = 0x01 then some .getVersion
  else if b = 0x02 then some .getId
  else if b = 0x11 then some .readMemory
  else if b = 0x21 then some .go
  else if b = 0x31 then some .writeMemory
  else if b = 0x44 then some .extendedErase
  else if b = 0x63 then some .writeProtect
  else none

/-- `PreV4Command` from `protocol/command.rs`. -/
inductive PreV4Command where
  | erase
  | writeUnprotect
  | readoutProtect
  | readoutUnprotect
  deriving DecidableEq

/-- The `#[repr(u8)]` discriminants of `PreV4Command`. -/
def PreV4Command.toByte : PreV4Command → Byte
  | .erase => 0x43
  | .writeUnprotect => 0x73
  | .readoutProtect => 0x82
  | .readoutUnprotect => 0x92

/-- `TryFromPrimitive` for `PreV4Command`. -/
def PreV4Command.tryFrom (b : Byte) : Option PreV4Command :=
  if b = 0x43 then some .erase
  else if b = 0x73 then some .writeUnprotect
  else if b = 0x82 then some .readoutProtect
  else if b = 0x92 then some .readoutUnprotect
  else none

/-- `PostV4Command` from `protocol/command.rs`. -/
inductive PostV4Command where
  | special
  | write
  deriving DecidableEq

/-- The `#[repr(u8)]` discriminants of `PostV4Command`. -/
def PostV4Command.toByte : PostV4Command → Byte
  | .special => 0x50
  | .write => 0x73

/-- `TryFromPrimitive` for `PostV4Command`. -/
def PostV4Command.tryFrom (b : Byte) : Option PostV4Command :=
  if b = 0x50 then some .special
  else if b = 0x73 then some .write
  else none

/-- `Command` from `protocol/command.rs`: three disjoint opcode namespaces. -/
inductive Command where
  | common (c : CommonCommand)
  | preV4 (c : PreV4Command)
  | postV4 (c : PostV4Command)
  deriving DecidableEq

/-- The opcode byte of a command. -/
def Command.toByte : Command → Byte
  | .common c => c.toByte
  | .preV4 c => c.toByte
  | .postV4 c => c.toByte

/-- `impl From<Command> for Vec<u8>`: the wire frame `vec![b, !b]`. -/
def Command.toBytes (c : Command) : List Byte :=
  [c.toByte, complByte c.toByte]

/-- `ProtocolVersion` from `protocol/mod.rs`. -/
structure ProtocolVersion where
  version : Option (Nat × Nat)
  deriving DecidableEq

/-- `ProtocolVersion::unknown()`. -/
def ProtocolVersion.unknown : ProtocolVersion := ⟨none⟩

/-- `ProtocolVersion::is_known()`. -/
def ProtocolVersion.is_known (v : ProtocolVersion) : Bool := v.version.isSome

/-- `ProtocolVersion::is_post_v4()`: `major >= 4` when known, else false. -/
def ProtocolVersion.is_post_v4 (v : ProtocolVersion) : Bool :=
  match v.version with
  | some p => decide (4 ≤ p.fst)
  | none => false

/-- `impl From<u8> for ProtocolVersion`: nibble split of the version byte. -/
def ProtocolVersion.fromByte (b : Byte) : ProtocolVersion :=
  ⟨some ((b &&& 0xf0) >>> 4, b &&& 0x0f)⟩

/-- `ProtocolVersion::parse_command`: try `Common` first; if that fails and
the version is known, try the one version-appropriate extended set. -/
def ProtocolVersion.parse_command (v : ProtocolVersion) (b : Byte) : Option Command :=
  match CommonCommand.tryFrom b with
  | some c => some (.common c)
  | none =>
    if v.is_known then
      if v.is_post_v4 then (PostV4Command.tryFrom b).map .postV4
      else (PreV4Command.tryFrom b).map .preV4
    else none

/-- `ProtocolError` from `protocol/mod.rs`. -/
inductive ProtocolError where
  | missingProtocol
  | invalidCommand (b : Byte)
  | unknownCommands (version : ProtocolVersion) (unknown_commands : List Byte)
  deriving DecidableEq

/-- `Protocol` from `protocol/mod.rs`. -/
structure Protocol where
  version : ProtocolVersion
  deriving DecidableEq

/-- `impl TryFrom<&[u8]> for Protocol`: first byte is the version, every
remaining byte must resolve as an opcode under that version; all the bytes
that fail resolution are collected into the error. -/
def Protocol.tryFrom (bytes : List Byte) : Except ProtocolError Protocol :=
  match bytes with
  | [] => .error .missingProtocol
  | v :: rest =>
    let version := ProtocolVersion.fromByte v
    let unknown_commands := rest.filter (fun b => (version.parse_command b).isNone)
    if unknown_commands.isEmpty then .ok ⟨version⟩
    else .error (.unknownCommands version unknown_commands)

/-- `ProductId` from `stm_device/mod.rs`. -/
inductive ProductId where
  | stm32 (id : Nat)
  | unknown (bytes : List Byte)
  deriving DecidableEq

/-- `impl From<&[u8]> for ProductId`: exactly 2 bytes decode as a 16-bit
big-endian STM32 id, any other length is kept opaque. -/
def ProductId.fromBytes : List Byte → ProductId
  | [b0, b1] => .stm32 (b0 * 256 + b1)
  | bytes => .unknown bytes

/-- `StmDeviceError` from `stm_device/mod.rs`.  The `Io` variant stands for
any transport-layer error (IO failure or read timeout). -/
inductive StmDeviceError where
  | alreadyInitialised
  | uninitialised
  | expectedAck (b : Byte)
  | commandFail (c : Command)
  | retryExceeded (c : Command)
  | protocolError (e : ProtocolError)
  | ioError
  deriving DecidableEq

/-- One pending transport read: either a byte arrives or the read fails
(IO error / timeout). -/
inductive ReadEvt where
  | byte (b : Byte)
  | ioErr
  deriving DecidableEq

/-- `StmDevice` from `stm_device/mod.rs`, with the serial port replaced by
its observable behaviour: the pending read events and the write log. -/
structure StmDevice where
  input : List ReadEvt
  written : List Byte
  initialised : Bool
  protocol_version : ProtocolVersion
  retry_amount : Nat
  deriving DecidableEq

/-- `StmDevice::new`: uninitialised, unknown version, 5 retries. -/
def StmDevice.new (input : List ReadEvt) : StmDevice :=
  { input := input
    written := []
    initialised := false
    protocol_version := .unknown
    retry_amount := 5 }

/-- `self.port.write_all(bytes)`: append to the write log. -/
def StmDevice.write_all (d : StmDevice) (bytes : List Byte) : StmDevice :=
  { d with written := d.written ++ bytes }

/-- `StmDevice::read_byte`: consume one read event. An exhausted input list
behaves as a read timeout. -/
def StmDevice.read_byte (d : StmDevice) : Except StmDeviceError Byte × StmDevice :=
  match d.input with
  | .byte b :: rest => (.ok b, { d with input := rest })
  | .ioErr :: rest => (.error .ioError, { d with input := rest })
  | [] => (.error .ioError, d)

/-- `StmDevice::read_bytes(amount)`: `read_exact` into a buffer of size
`amount`, consuming events byte by byte until done or a fault. -/
def StmDevice.read_bytes (d : StmDevice) : Nat → Except StmDeviceError (List Byte) × StmDevice
  | 0 => (.ok [], d)
  | n + 1 =>
    match d.read_byte with
    | (.ok b, d1) =>
      match d1.read_bytes n with
      | (.ok bs, d2) => (.ok (b :: bs), d2)
      | (.error e, d2) => (.error e, d2)
    | (.error e, d1) => (.error e, d1)

/-- `StmDevice::get_ack`: `ACK ↦ true`, `NACK ↦ false`, any other byte is an
`ExpectedAck` protocol violation. -/
def StmDevice.get_ack (d : StmDevice) : Except StmDeviceError Bool × StmDevice :=
  match d.read_byte with
  | (.ok b, d1) =>
    if b = ACK then (.ok true, d1)
    else if b = NACK then (.ok false, d1)
    else (.error (.expectedAck b), d1)
  | (.error e, d1) => (.error e, d1)

/-- The `while !self.get_ack()? {}` wake-up loop of `StmDevice::initialise`,
expressed over the pending input events: skip every `NACK`, succeed at the
first `ACK`, fail at the first other byte or transport fault. -/
def awaitAckLoop : List ReadEvt → Except StmDeviceError Unit × List ReadEvt
  | [] => (.error .ioError, [])
  | .ioErr :: rest => (.error .ioError, rest)
  | .byte b :: rest =>
    if b = ACK then (.ok (), rest)
    else if b = NACK then awaitAckLoop rest
    else (.error (.expectedAck b), rest)

/-- `StmDevice::initialise`: fail `AlreadyInitialised` when already
initialised, otherwise write the wake byte `0x7F` and run the ack loop. -/
def StmDevice.initialise (d : StmDevice) : Except StmDeviceError Unit × StmDevice :=
  if d.initialised then (.error .alreadyInitialised, d)
  else
    let d1 := d.write_all [0x7F]
    match awaitAckLoop d1.input with
    | (.ok (), rest) => (.ok (), { d1 with input := rest, initialised := true })
    | (.error e, rest) => (.error e, { d1 with input := rest })

/-- `StmDevice::send_command`: only when initialised — write the command
frame and wait for the single response byte. -/
def StmDevice.send_command (d : StmDevice) (c : Command) : Except StmDeviceError Bool × StmDevice :=
  if d.initialised then (d.write_all c.toBytes).get_ack
  else (.error .uninitialised, d)

/-- The `for _ in 0..self.retry_amount` loop of `StmDevice::retry_command`:
`Ok(true)` returns success, `Ok(false)` (an explicit Nack) returns
`CommandFail` at once, and any `Err(_)` consumes one attempt. -/
def retryLoop (d : StmDevice) (c : Command) : Nat → Except StmDeviceError Unit × StmDevice
  | 0 => (.error (.retryExceeded c), d)
  | n + 1 =>
    match d.send_command c with
    | (.ok true, d1) => (.ok (), d1)
    | (.ok false, d1) => (.error (.commandFail c), d1)
    | (.error _, d1) => retryLoop d1 c n

/-- `StmDevice::retry_command`. -/
def StmDevice.retry_command (d : StmDevice) (c : Command) : Except StmDeviceError Unit × StmDevice :=
  retryLoop d c d.retry_amount

/-- `StmDevice::get_protocol`: `retry_command(Get)`, read the length byte,
read `length + 1` bytes (`u8` addition, so the sum wraps at 256), attempt a
trailing ack whose result is discarded (`self.get_ack().ok();`), then parse
the payload as a `Protocol`. -/
def StmDevice.get_protocol (d : StmDevice) : Except StmDeviceError Protocol × StmDevice :=
  match d.retry_command (.common .get) with
  | (.error e, d1) => (.error e, d1)
  | (.ok (), d1) =>
    match d1.read_byte with
    | (.error e, d2) => (.error e, d2)
    | (.ok len, d2) =>
      match d2.read_bytes ((len + 1) % 256) with
      | (.error e, d3) => (.error e, d3)
      | (.ok response, d3) =>
        let d4 := (d3.get_ack).2
        match Protocol.tryFrom response with
        | .ok p => (.ok p, d4)
        | .error e => (.error (.protocolError e), d4)

/-- `StmDevice::get_version`: `retry_command(Get)`, read 3 bytes, attempt a
discarded trailing ack, then store the version parsed from byte 0 into
`self.protocol_version` and return it. -/
def StmDevice.get_version (d : StmDevice) : Except StmDeviceError ProtocolVersion × StmDevice :=
  match d.retry_command (.common .get) with
  | (.error e, d1) => (.error e, d1)
  | (.ok (), d1) =>
    match d1.read_bytes 3 with
    | (.error e, d2) => (.error e, d2)
    | (.ok response, d2) =>
      let d3 := (d2.get_ack).2
      let pv := ProtocolVersion.fromByte response.headI
      (.ok pv, { d3 with protocol_version := pv })

/-- `StmDevice::get_id`: `retry_command(GetId)`, read the length byte, read
`length + 1` bytes (`u8` addition, wrapping at 256), decode the payload as a
`ProductId`, attempt a discarded trailing ack. -/
def StmDevice.get_id (d : StmDevice) : Except StmDeviceError ProductId × StmDevice :=
  match d.retry_command (.common .getId) with
  | (.error e, d1) => (.error e, d1)
  | (.ok (), d1) =>
    match d1.read_byte with
    | (.error e, d2) => (.error e, d2)
    | (.ok len, d2) =>
      match d2.read_bytes ((len + 1) % 256) with
      | (.error e, d3) => (.error e, d3)
      | (.ok response, d3) =>
        let product_id := ProductId.fromBytes response
        let d4 := (d3.get_ack).2
        (.ok product_id, d4)

/-- `u32::to_be_bytes`. -/
def u32BeBytes (a : Nat) : List Byte :=
  [(a >>> 24) % 256, (a >>> 16) % 256, (a >>> 8) % 256, a % 256]

/-- XOR fold of a byte list starting from 0:
`bytes.iter().fold(0, |checksum, &b| checksum ^ b)`. -/
def xorFold (bytes : List Byte) : Byte :=
  bytes.foldl (fun checksum b => checksum ^^^ b) 0

/-- `StmDevice::send_byte`: write `[byte, !byte]` then `self.get_ack()?;`
— note the `?` only propagates errors, a Nack (`Ok(false)`) is discarded. -/
def StmDevice.send_byte (d : StmDevice) (b : Byte) : Except StmDeviceError Unit × StmDevice :=
  match (d.write_all [b, complByte b]).get_ack with
  | (.ok _, d1) => (.ok (), d1)
  | (.error e, d1) => (.error e, d1)

/-- `StmDevice::send_bytes`: write the payload followed by its XOR-fold
checksum, then `self.get_ack()?;` (Nack discarded, errors propagated). -/
def StmDevice.send_bytes (d : StmDevice) (bytes : List Byte) : Except StmDeviceError Unit × StmDevice :=
  match (d.write_all (bytes ++ [xorFold bytes])).get_ack with
  | (.ok _, d1) => (.ok (), d1)
  | (.error e, d1) => (.error e, d1)

/-- `StmDevice::read_memory`: `retry_command(ReadMemory)`, send the 4
big-endian address bytes as a checksummed frame, send the byte count as a
complemented frame, then read `byte_count + 1` bytes (`usize` addition, no
wrap) and return them with no trailing acknowledgement read. -/
def StmDevice.read_memory (d : StmDevice) (address : Nat) (byte_count : Byte) :
    Except StmDeviceError (List Byte) × StmDevice :=
  match d.retry_command (.common .readMemory) with
  | (.error e, d1) => (.error e, d1)
  | (.ok (), d1) =>
    match d1.send_bytes (u32BeBytes address) with
    | (.error e, d2) => (.error e, d2)
    | (.ok (), d2) =>
      match d2.send_byte byte_count with
      | (.error e, d3) => (.error e, d3)
      | (.ok (), d3) => d3.read_bytes (byte_count + 1)

/-- An initialised session with unknown protocol version, an empty write
log, the default 5-attempt retry budget and the given pending input. -/
def mkDev (input : List ReadEvt) : StmDevice :=
  { input := input
    written := []
    initialised := true
    protocol_version := .unknown
    retry_amount := 5 }

/-! ### Wire frames of the three commands the session issues -/

theorem toBytes_get : (Command.common CommonCommand.get).toBytes = [0x00, 0xFF] := rfl

theorem toBytes_getId : (Command.common CommonCommand.getId).toBytes = [0x02, 0xFD] := rfl

theorem toBytes_readMemory : (Command.common CommonCommand.readMemory).toBytes = [0x11, 0xEE] := rfl

/-! ### Single-step behaviour of `send_command` on each kind of response -/

theorem send_command_ack (d : StmDevice) (c : Command) (rest : List ReadEvt)
    (h1 : d.initialised = true) (h2 : d.input = .byte ACK :: rest) :
    d.send_command c = (.ok true, { d with written := d.written ++ c.toBytes, input := rest }) := by
  simp [StmDevice.send_command, StmDevice.write_all, StmDevice.get_ack, StmDevice.read_byte,
    h1, h2]

theorem send_command_nack (d : StmDevice) (c : Command) (rest : List ReadEvt)
    (h1 : d.initialised = true) (h2 : d.input = .byte NACK :: rest) :
    d.send_command c = (.ok false, { d with written := d.written ++ c.toBytes, input := rest }) := by
  simp [StmDevice.send_command, StmDevice.write_all, StmDevice.get_ack, StmDevice.read_byte,
    h1, h2, ACK, NACK]

theorem send_command_junk (d : StmDevice) (c : Command) (j : Byte) (rest : List ReadEvt)
    (h1 : d.initialised = true) (hj1 : j ≠ ACK) (hj2 : j ≠ NACK)
    (h2 : d.input = .byte j :: rest) :
    d.send_command c =
      (.error (.expectedAck j), { d with written := d.written ++ c.toBytes, input := rest }) := by
  simp [StmDevice.send_command, StmDevice.write_all, StmDevice.get_ack, StmDevice.read_byte,
    h1, h2, hj1, hj2]

theorem send_command_ioErr (d : StmDevice) (c : Command) (rest : List ReadEvt)
    (h1 : d.initialised = true) (h2 : d.input = .ioErr :: rest) :
    d.send_command c =
      (.error .ioError, { d with written := d.written ++ c.toBytes, input := rest }) := by
  simp [StmDevice.send_command, StmDevice.write_all, StmDevice.get_ack, StmDevice.read_byte,
    h1, h2]

theorem send_command_uninit (d : StmDevice) (c : Command) (h : d.initialised = false) :
    d.send_command c = (.error .uninitialised, d) := by
  simp [StmDevice.send_command, h]

/-! ### Behaviour of the retry loop -/

theorem retryLoop_ack (d : StmDevice) (c : Command) (rest : List ReadEvt) (n : Nat)
    (h1 : d.initialised = true) (h2 : d.input = .byte ACK :: rest) :
    retryLoop d c (n + 1) =
      (.ok (), { d with written := d.written ++ c.toBytes, input := rest }) := by
  simp only [retryLoop, send_command_ack d c rest h1 h2]

theorem retryLoop_nack (d : StmDevice) (c : Command) (rest : List ReadEvt) (n : Nat)
    (h1 : d.initialised = true) (h2 : d.input = .byte NACK :: rest) :
    retryLoop d c (n + 1) =
      (.error (.commandFail c), { d with written := d.written ++ c.toBytes, input := rest }) := by
  simp only [retryLoop, send_command_nack d c rest h1 h2]

theorem retryLoop_uninit (n : Nat) (d : StmDevice) (c : Command) (h : d.initialised = false) :
    retryLoop d c n = (.error (.retryExceeded c), d) := by
  induction n with
  | zero => rfl
  | succ n ih => simp only [retryLoop, send_command_uninit d c h, ih]

theorem retryLoop_ioErr (n : Nat) (d : StmDevice) (c : Command) (rest : List ReadEvt)
    (h1 : d.initialised = true) (h2 : d.input = List.replicate n .ioErr ++ rest) :
    retryLoop d c n =
      (.error (.retryExceeded c),
       { d with written := d.written ++ (List.replicate n c.toBytes).flatten, input := rest }) := by
  induction n generalizing d with
  | zero =>
    obtain ⟨i, w, ini, pv, ra⟩ := d
    simp only [List.replicate, List.nil_append] at h2
    simp [retryLoop, h2]
  | succ n ih =>
    rw [List.replicate_succ, List.cons_append] at h2
    simp only [retryLoop, send_command_ioErr d c _ h1 h2]
    have hstep := ih
      ({ d with written := d.written ++ c.toBytes, input := List.replicate n ReadEvt.ioErr ++ rest })
      (by simpa using h1) rfl
    rw [hstep]
    simp [List.replicate_succ, List.append_assoc]

theorem retry_command_ack (d : StmDevice) (c : Command) (rest : List ReadEvt)
    (h1 : d.initialised = true) (h5 : d.retry_amount = 5) (h2 : d.input = .byte ACK :: rest) :
    d.retry_command c = (.ok (), { d with written := d.written ++ c.toBytes, input := rest }) := by
  show retryLoop d c d.retry_amount = _
  conv_lhs => rw [h5]
  exact retryLoop_ack d c rest 4 h1 h2

theorem retry_command_nack (d : StmDevice) (c : Command) (rest : List ReadEvt)
    (h1 : d.initialised = true) (h5 : d.retry_amount = 5) (h2 : d.input = .byte NACK :: rest) :
    d.retry_command c =
      (.error (.commandFail c), { d with written := d.written ++ c.toBytes, input := rest }) := by
  show retryLoop d c d.retry_amount = _
  conv_lhs => rw [h5]
  exact retryLoop_nack d c rest 4 h1 h2

/-- One failed attempt hands the remaining fuel to the next attempt. -/
theorem retryLoop_step_err (d : StmDevice) (c : Command) (n : Nat) (e : StmDeviceError)
    (d1 : StmDevice) (h : d.send_command c = (.error e, d1)) :
    retryLoop d c (n + 1) = retryLoop d1 c n := by
  simp only [retryLoop, h]

theorem retry_command_junk_then_ack (d : StmDevice) (c : Command) (j : Byte) (rest : List ReadEvt)
    (h1 : d.initialised = true) (h5 : d.retry_amount = 5)
    (hj1 : j ≠ ACK) (hj2 : j ≠ NACK) (h2 : d.input = .byte j :: .byte ACK :: rest) :
    d.retry_command c =
      (.ok (), { d with written := d.written ++ c.toBytes ++ c.toBytes, input := rest }) := by
  show retryLoop d c d.retry_amount = _
  conv_lhs => rw [h5, show (5 : Nat) = 4 + 1 from rfl]
  rw [retryLoop_step_err d c 4 _ _ (send_command_junk d c j _ h1 hj1 hj2 h2)]
  exact retryLoop_ack _ c rest 3 (by simpa using h1) rfl

theorem retry_command_ioErr5 (d : StmDevice) (c : Command) (rest : List ReadEvt)
    (h1 : d.initialised = true) (h5 : d.retry_amount = 5)
    (h2 : d.input = List.replicate 5 .ioErr ++ rest) :
    d.retry_command c =
      (.error (.retryExceeded c),
       { d with written := d.written ++ (List.replicate 5 c.toBytes).flatten, input := rest }) := by
  show retryLoop d c d.retry_amount = _
  conv_lhs => rw [h5]
  exact retryLoop_ioErr 5 d c rest h1 h2

/-! ### Reading an exact number of payload bytes -/

theorem read_bytes_exact (data : List Byte) (rest : List ReadEvt) (d : StmDevice)
    (h : d.input = data.map .byte ++ rest) :
    d.read_bytes data.length = (.ok data, { d with input := rest }) := by
  induction data generalizing d with
  | nil =>
    obtain ⟨i, w, ini, pv, ra⟩ := d
    simp only [List.map_nil, List.nil_append] at h
    simp [StmDevice.read_bytes, h]
  | cons b bs ih =>
    rw [List.map_cons, List.cons_append] at h
    have hstep := ih ({ d with input := bs.map ReadEvt.byte ++ rest }) rfl
    simp [StmDevice.read_bytes, StmDevice.read_byte, h, hstep]

/-- The discarded trailing-acknowledgement read consumes exactly one pending
event, whatever it is. -/
theorem get_ack_snd (d : StmDevice) (evt : ReadEvt) (rest : List ReadEvt)
    (h : d.input = evt :: rest) :
    (d.get_ack).2 = { d with input := rest } := by
  cases evt with
  | byte b =>
    simp only [StmDevice.get_ack, StmDevice.read_byte, h]
    split
    · rfl
    · split <;> rfl
  | ioErr => simp [StmDevice.get_ack, StmDevice.read_byte, h]

/-- The discarded trailing-acknowledgement read on an exhausted transport
leaves the device unchanged. -/
theorem get_ack_snd_nil (d : StmDevice) (h : d.input = []) : (d.get_ack).2 = d := by
  simp [StmDevice.get_ack, StmDevice.read_byte, h]

/-! ### The wake-up synchronization loop -/

theorem awaitAckLoop_ack (n : Nat) (rest : List ReadEvt) :
    awaitAckLoop (List.replicate n (.byte NACK) ++ .byte ACK :: rest) = (.ok (), rest) := by
  induction n with
  | zero => simp [awaitAckLoop]
  | succ n ih =>
    rw [List.replicate_succ, List.cons_append]
    simp only [awaitAckLoop]
    rw [if_neg (show NACK ≠ ACK by decide)]
    simpa using ih

theorem awaitAckLoop_junk (n : Nat) (b : Byte) (rest : List ReadEvt)
    (hb1 : b ≠ ACK) (hb2 : b ≠ NACK) :
    awaitAckLoop (List.replicate n (.byte NACK) ++ .byte b :: rest) =
      (.error (.expectedAck b), rest) := by
  induction n with
  | zero => simp [awaitAckLoop, hb1, hb2]
  | succ n ih =>
    rw [List.replicate_succ, List.cons_append]
    simp only [awaitAckLoop]
    rw [if_neg (show NACK ≠ ACK by decide)]
    simpa using ih

/-! ### Complete runs of the payload-carrying operations -/

theorem get_id_run (d : StmDevice) (L : Byte) (payload : List Byte) (trailing : ReadEvt)
    (rest : List ReadEvt) (h1 : d.initialised = true) (h5 : d.retry_amount = 5)
    (hlen : payload.length = (L + 1) % 256)
    (h2 : d.input = .byte ACK :: .byte L :: payload.map .byte ++ trailing :: rest) :
    d.get_id =
      (.ok (ProductId.fromBytes payload),
       { d with written := d.written ++ [0x02, 0xFD], input := rest }) := by
  unfold StmDevice.get_id
  rw [retry_command_ack d _ _ h1 h5 h2, toBytes_getId]
  simp only [List.append_eq, List.cons_append, StmDevice.read_byte]
  rw [← hlen]
  rw [read_bytes_exact payload (trailing :: rest)]
  simp only []
  rw [get_ack_snd _ trailing rest]
  all_goals rfl

theorem get_protocol_run (d : StmDevice) (L : Byte) (payload : List Byte) (trailing : ReadEvt)
    (rest : List ReadEvt) (h1 : d.initialised = true) (h5 : d.retry_amount = 5)
    (hlen : payload.length = (L + 1) % 256)
    (h2 : d.input = .byte ACK :: .byte L :: payload.map .byte ++ trailing :: rest) :
    d.get_protocol =
      ((Protocol.tryFrom payload).mapError .protocolError,
       { d with written := d.written ++ [0x00, 0xFF], input := rest }) := by
  unfold StmDevice.get_protocol
  rw [retry_command_ack d _ _ h1 h5 h2, toBytes_get]
  simp only [List.append_eq, List.cons_append, StmDevice.read_byte]
  rw [← hlen]
  rw [read_bytes_exact payload (trailing :: rest)]
  simp only []
  rw [get_ack_snd _ trailing rest]
  · cases Protocol.tryFrom payload <;> rfl
  all_goals rfl

/-! ### The two checksummed send phases of `read_memory` -/

theorem send_bytes_resp (d : StmDevice) (bytes : List Byte) (b : Byte) (rest : List ReadEvt)
    (hb : b = ACK ∨ b = NACK) (h : d.input = .byte b :: rest) :
    d.send_bytes bytes =
      (.ok (), { d with written := d.written ++ (bytes ++ [xorFold bytes]), input := rest }) := by
  rcases hb with hb | hb <;>
    subst hb <;>
    simp [StmDevice.send_bytes, StmDevice.write_all, StmDevice.get_ack, StmDevice.read_byte,
      h, ACK, NACK]

theorem send_byte_resp (d : StmDevice) (b0 : Byte) (b : Byte) (rest : List ReadEvt)
    (hb : b = ACK ∨ b = NACK) (h : d.input = .byte b :: rest) :
    d.send_byte b0 =
      (.ok (), { d with written := d.written ++ [b0, complByte b0], input := rest }) := by
  rcases hb with hb | hb <;>
    subst hb <;>
    simp [StmDevice.send_byte, StmDevice.write_all, StmDevice.get_ack, StmDevice.read_byte,
      h, ACK, NACK]

/-- A successful `read_memory` run: the command frame, the 5-byte address
frame, the 2-byte count frame — each followed by one acknowledgement read —
then exactly `count + 1` returned bytes and no trailing acknowledgement. -/
theorem read_memory_run (d : StmDevice) (address : Nat) (count : Byte) (data : List Byte)
    (rest : List ReadEvt) (h1 : d.initialised = true) (h5 : d.retry_amount = 5)
    (hlen : data.length = count + 1)
    (h2 : d.input = .byte ACK :: .byte ACK :: .byte ACK :: data.map .byte ++ rest) :
    d.read_memory address count =
      (.ok data,
       { d with
           written := d.written ++ [0x11, 0xEE] ++ (u32BeBytes address ++ [xorFold (u32BeBytes address)]) ++ [count, complByte count],
           input := rest }) := by
  unfold StmDevice.read_memory
  rw [retry_command_ack d _ _ h1 h5 h2, toBytes_readMemory]
  simp only []
  rw [send_bytes_resp _ (u32BeBytes address) ACK _ (Or.inl rfl) rfl]
  simp only []
  rw [send_byte_resp _ count ACK _ (Or.inl rfl) rfl]
  simp only []
  rw [← hlen]
  rw [read_bytes_exact data rest]
  all_goals rfl

/-! ### Complete runs of `initialise` -/

theorem initialise_ok (d : StmDevice) (n : Nat) (rest : List ReadEvt)
    (h1 : d.initialised = false)
    (h2 : d.input = List.replicate n (.byte NACK) ++ .byte ACK :: rest) :
    d.initialise =
      (.ok (), { d with written := d.written ++ [0x7F], input := rest, initialised := true }) := by
  unfold StmDevice.initialise
  simp only [h1, Bool.false_eq_true, if_false, StmDevice.write_all]
  rw [show ({ d with written := d.written ++ [0x7F] } : StmDevice).input = d.input from rfl,
    h2, awaitAckLoop_ack n rest]

theorem initialise_junk (d : StmDevice) (n : Nat) (b : Byte) (rest : List ReadEvt)
    (h1 : d.initialised = false) (hb1 : b ≠ ACK) (hb2 : b ≠ NACK)
    (h2 : d.input = List.replicate n (.byte NACK) ++ .byte b :: rest) :
    d.initialise =
      (.error (.expectedAck b), { d with written := d.written ++ [0x7F], input := rest }) := by
  unfold StmDevice.initialise
  simp only [h1, Bool.false_eq_true, if_false, StmDevice.write_all]
  rw [show ({ d with written := d.written ++ [0x7F] } : StmDevice).input = d.input from rfl,
    h2, awaitAckLoop_junk n b rest hb1 hb2]

/-! ### No operation except `get_version` touches `protocol_version` -/

theorem read_byte_pv (d : StmDevice) :
    (d.read_byte).2.protocol_version = d.protocol_version := by
  unfold StmDevice.read_byte
  split <;> rfl

theorem read_bytes_pv (n : Nat) (d : StmDevice) :
    (d.read_bytes n).2.protocol_version = d.protocol_version := by
  induction n generalizing d with
  | zero => rfl
  | succ n ih =>
    unfold StmDevice.read_bytes
    split
    · rename_i b d1 heq
      have e1 : d1.protocol_version = d.protocol_version := by
        have h := read_byte_pv d; rw [heq] at h; exact h
      split
      · rename_i bs d2 heq2
        have e2 : d2.protocol_version = d1.protocol_version := by
          have h := ih d1; rw [heq2] at h; exact h
        simpa [e2] using e1
      · rename_i e d2 heq2
        have e2 : d2.protocol_version = d1.protocol_version := by
          have h := ih d1; rw [heq2] at h; exact h
        simpa [e2] using e1
    · rename_i e d1 heq
      have h := read_byte_pv d; rw [heq] at h; simpa using h

theorem get_ack_pv (d : StmDevice) :
    (d.get_ack).2.protocol_version = d.protocol_version := by
  unfold StmDevice.get_ack
  split
  · rename_i b d1 heq
    have h := read_byte_pv d; rw [heq] at h
    split
    · simpa using h
    · split <;> simpa using h
  · rename_i e d1 heq
    have h := read_byte_pv d; rw [heq] at h; simpa using h

theorem send_command_pv (d : StmDevice) (c : Command) :
    (d.send_command c).2.protocol_version = d.protocol_version := by
  unfold StmDevice.send_command
  split
  · have h := get_ack_pv (d.write_all c.toBytes)
    simpa [StmDevice.write_all] using h
  · rfl

theorem retryLoop_pv (n : Nat) (d : StmDevice) (c : Command) :
    (retryLoop d c n).2.protocol_version = d.protocol_version := by
  induction n generalizing d with
  | zero => rfl
  | succ n ih =>
    unfold retryLoop
    split
    · rename_i d1 heq
      have h := send_command_pv d c; rw [heq] at h; simpa using h
    · rename_i d1 heq
      have h := send_command_pv d c; rw [heq] at h; simpa using h
    · rename_i e d1 heq
      have h := send_command_pv d c; rw [heq] at h
      have h3 : d1.protocol_version = d.protocol_version := by simpa using h
      have h2 := ih d1
      rw [h3] at h2
      exact h2

theorem retry_command_pv (d : StmDevice) (c : Command) :
    (d.retry_command c).2.protocol_version = d.protocol_version :=
  retryLoop_pv d.retry_amount d c

/-- `get_protocol` never writes the session's `protocol_version` field. -/
theorem get_protocol_pv (d : StmDevice) :
    (d.get_protocol).2.protocol_version = d.protocol_version := by
  unfold StmDevice.get_protocol
  split
  · rename_i e d1 heq
    have h := retry_command_pv d (.common .get); rw [heq] at h; simpa using h
  · rename_i d1 heq
    have e1 : d1.protocol_version = d.protocol_version := by
      have h := retry_command_pv d (.common .get); rw [heq] at h; exact h
    split
    · rename_i e d2 heq2
      have h := read_byte_pv d1; rw [heq2] at h
      have e2 : d2.protocol_version = d1.protocol_version := by simpa using h
      simpa [e2] using e1
    · rename_i len d2 heq2
      have e2 : d2.protocol_version = d1.protocol_version := by
        have h := read_byte_pv d1; rw [heq2] at h; exact h
      split
      · rename_i e d3 heq3
        have e3 : d3.protocol_version = d2.protocol_version := by
          have h := read_bytes_pv ((len + 1) % 256) d2; rw [heq3] at h; exact h
        simpa [e3, e2] using e1
      · rename_i response d3 heq3
        have e3 : d3.protocol_version = d2.protocol_version := by
          have h := read_bytes_pv ((len + 1) % 256) d2; rw [heq3] at h; exact h
        have e4 := get_ack_pv d3
        split <;> simpa [e4, e3, e2] using e1

theorem retry_command_uninit (d : StmDevice) (c : Command) (h : d.initialised = false) :
    d.retry_command c = (.error (.retryExceeded c), d) :=
  retryLoop_uninit d.retry_amount d c h

/-! ### Resolved opcodes carry their own byte -/

theorem commonTryFrom_toByte (b : Byte) (c : CommonCommand)
    (h : CommonCommand.tryFrom b = some c) : c.toByte = b := by
  unfold CommonCommand.tryFrom at h
  split_ifs at h <;>
    first
      | (injection h with h2; subst_vars; rfl)
      | exact Option.noConfusion h

theorem preTryFrom_toByte (b : Byte) (c : PreV4Command)
    (h : PreV4Command.tryFrom b = some c) : c.toByte = b := by
  unfold PreV4Command.tryFrom at h
  split_ifs at h <;>
    first
      | (injection h with h2; subst_vars; rfl)
      | exact Option.noConfusion h

theorem postTryFrom_toByte (b : Byte) (c : PostV4Command)
    (h : PostV4Command.tryFrom b = some c) : c.toByte = b := by
  unfold PostV4Command.tryFrom at h
  split_ifs at h <;>
    first
      | (injection h with h2; subst_vars; rfl)
      | exact Option.noConfusion h

/-- Whatever command `parse_command` resolves a byte to, that command's own
opcode byte is the byte that was parsed. -/
theorem parse_command_toByte (v : ProtocolVersion) (b : Byte) (cmd : Command)
    (h : v.parse_command b = some cmd) : cmd.toByte = b := by
  unfold ProtocolVersion.parse_command at h
  rcases hc : CommonCommand.tryFrom b with _ | c
  · simp only [hc] at h
    by_cases hk : v.is_known
    · rw [if_pos hk] at h
      by_cases hp : v.is_post_v4
      · rw [if_pos hp] at h
        rcases hq : PostV4Command.tryFrom b with _ | c2
        · rw [hq] at h; exact Option.noConfusion h
        · rw [hq, Option.map_some'] at h
          injection h with h2
          subst h2
          exact postTryFrom_toByte b c2 hq
      · rw [if_neg hp] at h
        rcases hq : PreV4Command.tryFrom b with _ | c2
        · rw [hq] at h; exact Option.noConfusion h
        · rw [hq, Option.map_some'] at h
          injection h with h2
          subst h2
          exact preTryFrom_toByte b c2 hq
    · rw [if_neg hk] at h; exact Option.noConfusion h
  · simp only [hc] at h
    injection h with h2
    subst h2
    exact commonTryFrom_toByte b c hc

/-! ## The claims -/

/-- Claim C1, as the code actually behaves (amended): when a command-issuing
operation (`get_protocol`, `get_id`, `read_memory`) is invoked while the
session is uninitialised, every attempt made by the retry loop fails with
the `Uninitialised` state error (first conjunct), but `retry_command`
treats that state error like any other failed attempt and retries it, so
the operation surfaces `RetryExceeded` naming the command — not the
`Uninitialised` error — and the session and transport are left untouched. -/
theorem C1_theorem :
    (∀ (d : StmDevice) (c : Command), d.initialised = false →
      d.send_command c = (.error .uninitialised, d))
    ∧ (∀ d : StmDevice, d.initialised = false →
      d.get_protocol = (.error (.retryExceeded (.common .get)), d))
    ∧ (∀ d : StmDevice, d.initialised = false →
      d.get_id = (.error (.retryExceeded (.common .getId)), d))
    ∧ (∀ (d : StmDevice) (address : Nat) (count : Byte), d.initialised = false →
      d.read_memory address count = (.error (.retryExceeded (.common .readMemory)), d)) := by
  refine ⟨fun d c h => send_command_uninit d c h, fun d h => ?_, fun d h => ?_,
    fun d address count h => ?_⟩
  · unfold StmDevice.get_protocol
    rw [retry_command_uninit d _ h]
  · unfold StmDevice.get_id
    rw [retry_command_uninit d _ h]
  · unfold StmDevice.read_memory
    rw [retry_command_uninit d _ h]

/-- Claim C1 as stated is false: on an uninitialised session `get_protocol`
does not fail with the `Uninitialised` state error — the state error is
swallowed and retried by the retry loop, and `RetryExceeded` is reported
instead (the pending `Ack` on the transport is never read). -/
theorem C1_counterexample :
    (StmDevice.new [.byte ACK]).get_protocol =
      (.error (.retryExceeded (.common .get)), StmDevice.new [.byte ACK])
    ∧ ((StmDevice.new [.byte ACK]).get_protocol).1 ≠ .error .uninitialised := by
  decide

/-- Witness for C1: the amended claim applied to concrete uninitialised
sessions. -/
theorem C1_witness :
    (StmDevice.new []).send_command (.common .get) = (.error .uninitialised, StmDevice.new [])
    ∧ (StmDevice.new []).get_id =
      (.error (.retryExceeded (.common .getId)), StmDevice.new []) :=
  ⟨C1_theorem.1 (StmDevice.new []) (.common .get) rfl, C1_theorem.2.2.1 (StmDevice.new []) rfl⟩

/-- Claim C2, as the code actually behaves (amended): a call to
`get_protocol` — successful or not — leaves the session's
`protocol_version` field exactly as it was (the parsed version is only
returned in the result); the field is written by `get_version`, every
successful call of which stores a known version parsed from the first
response byte. -/
theorem C2_theorem :
    (∀ d : StmDevice, (d.get_protocol).2.protocol_version = d.protocol_version)
    ∧ (∀ (d : StmDevice) (v : ProtocolVersion), (d.get_version).1 = .ok v →
      (d.get_version).2.protocol_version = v ∧ v.is_known = true) := by
  refine ⟨get_protocol_pv, fun d v h => ?_⟩
  unfold StmDevice.get_version at h ⊢
  rcases heq : d.retry_command (.common .get) with ⟨res, d1⟩
  rw [heq] at h
  cases res with
  | error e => simp at h
  | ok u =>
    cases u
    simp only [] at h ⊢
    rcases heq2 : d1.read_bytes 3 with ⟨res2, d2⟩
    rw [heq2] at h
    cases res2 with
    | error e => simp at h
    | ok response =>
      simp only [] at h ⊢
      have hv : v = ProtocolVersion.fromByte response.headI := by
        have := Except.ok.inj h
        exact this.symm
      subst hv
      exact ⟨rfl, rfl⟩

/-- Claim C2 as stated is false: a successful `get_protocol` call (here the
device answers `Ack`, payload length byte 1, payload version byte `0x31`
followed by the valid opcode `0x00`, trailing `Ack`) returns the parsed
version `(3, 1)` but leaves the session's `protocol_version` still
`Unknown` — the field is never written by `get_protocol`. -/
theorem C2_counterexample :
    ((mkDev [.byte ACK, .byte 0x01, .byte 0x31, .byte 0x00, .byte ACK]).get_protocol).1 =
      .ok ⟨⟨some (3, 1)⟩⟩
    ∧ ((mkDev [.byte ACK, .byte 0x01, .byte 0x31, .byte 0x00, .byte ACK]).get_protocol).2.protocol_version =
      .unknown
    ∧ ProtocolVersion.unknown.is_known = false := by
  decide

/-- Witness for C2: a concrete successful `get_version` run stores the
known version `(3, 1)`. -/
theorem C2_witness :
    ((mkDev [.byte ACK, .byte 0x31, .byte 0x00, .byte 0x01, .byte ACK]).get_version).2.protocol_version =
      ⟨some (3, 1)⟩
    ∧ (⟨some (3, 1)⟩ : ProtocolVersion).is_known = true :=
  C2_theorem.2 (mkDev [.byte ACK, .byte 0x31, .byte 0x00, .byte 0x01, .byte ACK])
    ⟨some (3, 1)⟩ (by decide)

/-- Claim C3, as the code actually behaves (amended): `retry_command(cmd)`
makes at most 5 attempts; the first `Ack` returns success at once, the
first explicit `Nack` returns `CommandFail cmd` at once without a further
attempt (a pending `Ack` behind it is not consumed); every `Err` from an
attempt — transport errors, but equally unexpected-response-byte protocol
violations and the `Uninitialised` state error — consumes one retry, and
when all 5 attempts fail with errors the call fails `RetryExceeded cmd`. -/
theorem C3_theorem :
    (∀ (d : StmDevice) (c : Command) (rest : List ReadEvt),
      d.initialised = true → d.retry_amount = 5 → d.input = .byte ACK :: rest →
      d.retry_command c = (.ok (), { d with written := d.written ++ c.toBytes, input := rest }))
    ∧ (∀ (d : StmDevice) (c : Command) (rest : List ReadEvt),
      d.initialised = true → d.retry_amount = 5 → d.input = .byte NACK :: rest →
      d.retry_command c =
        (.error (.commandFail c), { d with written := d.written ++ c.toBytes, input := rest }))
    ∧ (∀ (d : StmDevice) (c : Command) (j : Byte) (rest : List ReadEvt),
      d.initialised = true → d.retry_amount = 5 → j ≠ ACK → j ≠ NACK →
      d.input = .byte j :: .byte ACK :: rest →
      d.retry_command c =
        (.ok (), { d with written := d.written ++ c.toBytes ++ c.toBytes, input := rest }))
    ∧ (∀ (d : StmDevice) (c : Command) (rest : List ReadEvt),
      d.initialised = true → d.retry_amount = 5 →
      d.input = List.replicate 5 .ioErr ++ rest →
      d.retry_command c =
        (.error (.retryExceeded c),
         { d with written := d.written ++ (List.replicate 5 c.toBytes).flatten, input := rest })) :=
  ⟨fun d c rest h1 h5 h2 => retry_command_ack d c rest h1 h5 h2,
   fun d c rest h1 h5 h2 => retry_command_nack d c rest h1 h5 h2,
   fun d c j rest h1 h5 hj1 hj2 h2 => retry_command_junk_then_ack d c j rest h1 h5 hj1 hj2 h2,
   fun d c rest h1 h5 h2 => retry_command_ioErr5 d c rest h1 h5 h2⟩

/-- Claim C3 as stated is false in its "only transport-layer errors consume
a retry" part: an unexpected response byte `0x42` makes the attempt fail
with the `ExpectedAck` protocol violation — not a transport error — yet the
retry loop consumes a retry on it and succeeds on the next attempt. -/
theorem C3_counterexample :
    ((mkDev [.byte 0x42, .byte ACK]).send_command (.common .get)).1 = .error (.expectedAck 0x42)
    ∧ (mkDev [.byte 0x42, .byte ACK]).retry_command (.common .get) =
      (.ok (), { mkDev [] with written := [0x00, 0xFF, 0x00, 0xFF] }) := by
  decide

/-- Witness for C3: the amended claim applied to concrete sessions — a Nack
then a pending Ack gives `CommandFail` with the Ack left unread, and a lone
Ack gives immediate success. -/
theorem C3_witness :
    (mkDev [.byte NACK, .byte ACK]).retry_command (.common .get) =
      (.error (.commandFail (.common .get)),
       { mkDev [.byte NACK, .byte ACK] with
           written := (mkDev [.byte NACK, .byte ACK]).written ++ (Command.common .get).toBytes,
           input := [.byte ACK] })
    ∧ (mkDev [.byte ACK]).retry_command (.common .getId) =
      (.ok (),
       { mkDev [.byte ACK] with
           written := (mkDev [.byte ACK]).written ++ (Command.common .getId).toBytes,
           input := [] }) :=
  ⟨C3_theorem.2.1 (mkDev [.byte NACK, .byte ACK]) (.common .get) [.byte ACK] rfl rfl rfl,
   C3_theorem.1 (mkDev [.byte ACK]) (.common .getId) [] rfl rfl rfl⟩

/-- Claim C4, as the code actually behaves (amended): in `get_protocol` and
`get_id` one trailing-acknowledgement read is attempted after the payload,
but its outcome is discarded — whether the event at that position is an
`Ack`, a `Nack`, an unexpected byte or a transport fault, the call's result
is the same and is determined by the payload alone. -/
theorem C4_theorem :
    (∀ (d : StmDevice) (L : Byte) (payload : List Byte) (trailing : ReadEvt)
      (rest : List ReadEvt),
      d.initialised = true → d.retry_amount = 5 → payload.length = (L + 1) % 256 →
      d.input = .byte ACK :: .byte L :: payload.map .byte ++ trailing :: rest →
      d.get_id = (.ok (ProductId.fromBytes payload),
        { d with written := d.written ++ [0x02, 0xFD], input := rest }))
    ∧ (∀ (d : StmDevice) (L : Byte) (payload : List Byte) (trailing : ReadEvt)
      (rest : List ReadEvt),
      d.initialised = true → d.retry_amount = 5 → payload.length = (L + 1) % 256 →
      d.input = .byte ACK :: .byte L :: payload.map .byte ++ trailing :: rest →
      d.get_protocol = ((Protocol.tryFrom payload).mapError .protocolError,
        { d with written := d.written ++ [0x00, 0xFF], input := rest })) :=
  ⟨fun d L payload trailing rest h1 h5 hlen h2 =>
    get_id_run d L payload trailing rest h1 h5 hlen h2,
   fun d L payload trailing rest h1 h5 hlen h2 =>
    get_protocol_run d L payload trailing rest h1 h5 hlen h2⟩

/-- Claim C4 as stated is false: `get_id` reads the unexpected byte `0x42`
(first conjunct) or a `Nack` (second conjunct) in the trailing-acknowledgement
position and still succeeds, returning the decoded id `0x0416`. -/
theorem C4_counterexample :
    ((mkDev [.byte ACK, .byte 0x01, .byte 0x04, .byte 0x16, .byte 0x42]).get_id).1 =
      .ok (.stm32 0x0416)
    ∧ ((mkDev [.byte ACK, .byte 0x01, .byte 0x04, .byte 0x16, .byte NACK]).get_id).1 =
      .ok (.stm32 0x0416) := by
  decide

/-- Witness for C4: concrete runs with a junk byte and with a transport
fault in the trailing position, both succeeding. -/
theorem C4_witness :
    (mkDev [.byte ACK, .byte 0x01, .byte 0x04, .byte 0x16, .byte 0x42, .ioErr]).get_id =
      (.ok (ProductId.fromBytes [0x04, 0x16]),
       { mkDev [.byte ACK, .byte 0x01, .byte 0x04, .byte 0x16, .byte 0x42, .ioErr] with
           written := (mkDev [.byte ACK, .byte 0x01, .byte 0x04, .byte 0x16, .byte 0x42, .ioErr]).written ++ [0x02, 0xFD],
           input := [.ioErr] })
    ∧ (mkDev [.byte ACK, .byte 0x01, .byte 0x31, .byte 0x00, .ioErr]).get_protocol =
      ((Protocol.tryFrom [0x31, 0x00]).mapError .protocolError,
       { mkDev [.byte ACK, .byte 0x01, .byte 0x31, .byte 0x00, .ioErr] with
           written := (mkDev [.byte ACK, .byte 0x01, .byte 0x31, .byte 0x00, .ioErr]).written ++ [0x00, 0xFF],
           input := [] }) :=
  ⟨C4_theorem.1 (mkDev [.byte ACK, .byte 0x01, .byte 0x04, .byte 0x16, .byte 0x42, .ioErr])
      0x01 [0x04, 0x16] (.byte 0x42) [.ioErr] rfl rfl rfl rfl,
   C4_theorem.2 (mkDev [.byte ACK, .byte 0x01, .byte 0x31, .byte 0x00, .ioErr])
      0x01 [0x31, 0x00] .ioErr [] rfl rfl rfl rfl⟩

/-- Claim C5 is the spec's intent, and the code diverges at the length byte
`L = 0xFF`: `let response_bytes = self.read_byte()? + 1;` is `u8`
arithmetic, so `255 + 1` wraps to `0` (and panics in a debug build).  At the
failing input the code reads 0 payload bytes instead of 256: here the device
supplies an acknowledged `GetId` with length byte `0xFF` followed by payload
bytes `0x01, 0x02`, and the call returns the empty `ProductId` having
consumed only the length byte and the one discarded trailing-ack read
(`0x01`), leaving `0x02` unread. -/
theorem C5_theorem :
    (mkDev [.byte ACK, .byte 0xFF, .byte 0x01, .byte 0x02]).get_id =
      (.ok (.unknown []), { mkDev [.byte 0x02] with written := [0x02, 0xFD] }) := by
  decide

/-- Claim C6: `Protocol::try_from` on `version byte :: rest` fails exactly
when some byte of `rest` does not resolve under the parsed version, the
error lists every offending byte (the full filter of `rest`, not just the
first), it succeeds exactly when every byte resolves, and the spec's
concrete example — payload `[0x31, 0x99]` after length byte `0x01` —
makes `get_protocol` fail listing exactly `[0x99]`. -/
theorem C6_theorem :
    (∀ (v : Byte) (rest : List Byte),
      (Protocol.tryFrom (v :: rest) =
        .error (.unknownCommands (ProtocolVersion.fromByte v)
          (rest.filter fun b => ((ProtocolVersion.fromByte v).parse_command b).isNone)))
      ↔ ∃ b ∈ rest, (ProtocolVersion.fromByte v).parse_command b = none)
    ∧ (∀ (v : Byte) (rest : List Byte),
      (Protocol.tryFrom (v :: rest) = .ok ⟨ProtocolVersion.fromByte v⟩)
      ↔ ∀ b ∈ rest, ((ProtocolVersion.fromByte v).parse_command b).isSome = true)
    ∧ (mkDev [.byte ACK, .byte 0x01, .byte 0x31, .byte 0x99]).get_protocol =
      (.error (.protocolError (.unknownCommands ⟨some (3, 1)⟩ [0x99])),
       { mkDev [] with written := [0x00, 0xFF] }) := by
  refine ⟨fun v rest => ?_, fun v rest => ?_, by decide⟩
  · unfold Protocol.tryFrom
    simp only []
    constructor
    · intro heq
      by_cases hemp :
        (rest.filter fun b => ((ProtocolVersion.fromByte v).parse_command b).isNone).isEmpty
      · rw [if_pos hemp] at heq
        exact absurd heq (by simp)
      · have hne :
            (rest.filter fun b => ((ProtocolVersion.fromByte v).parse_command b).isNone) ≠ [] := by
          intro hnil
          exact hemp (by simp [hnil])
        obtain ⟨b, hb⟩ := List.exists_mem_of_ne_nil _ hne
        obtain ⟨hb1, hb2⟩ := List.mem_filter.mp hb
        exact ⟨b, hb1, Option.isNone_iff_eq_none.mp hb2⟩
    · rintro ⟨b, hb, hnone⟩
      have hmem : b ∈ rest.filter fun x => ((ProtocolVersion.fromByte v).parse_command x).isNone :=
        List.mem_filter.mpr ⟨hb, by simp [hnone]⟩
      have hne := List.ne_nil_of_mem hmem
      rw [if_neg (by simpa [List.isEmpty_iff] using hne)]
  · unfold Protocol.tryFrom
    simp only []
    constructor
    · intro heq b hb
      by_cases hemp :
        (rest.filter fun x => ((ProtocolVersion.fromByte v).parse_command x).isNone).isEmpty
      · have hnil := List.isEmpty_iff.mp hemp
        have hnb := (List.filter_eq_nil_iff.mp hnil) b hb
        rcases hp : (ProtocolVersion.fromByte v).parse_command b with _ | c
        · exact absurd (by simp [hp]) hnb
        · simp [hp]
      · rw [if_neg hemp] at heq
        exact absurd heq (by simp)
    · intro hall
      have hnil :
          (rest.filter fun x => ((ProtocolVersion.fromByte v).parse_command x).isNone) = [] :=
        List.filter_eq_nil_iff.mpr (fun b hb => by
          have hs := hall b hb
          rcases hp : (ProtocolVersion.fromByte v).parse_command b with _ | c
          · rw [hp] at hs
            exact absurd hs (by simp)
          · simp [hp])
      rw [if_pos (by simp [hnil])]

/-- Witness for C6: the two characterizations applied at the spec's example
payload `[0x31, 0x99]` and at the all-valid payload `[0x31, 0x00]`. -/
theorem C6_witness :
    Protocol.tryFrom [0x31, 0x99] =
      .error (.unknownCommands (ProtocolVersion.fromByte 0x31)
        ([0x99].filter fun b => ((ProtocolVersion.fromByte 0x31).parse_command b).isNone))
    ∧ Protocol.tryFrom [0x31, 0x00] = .ok ⟨ProtocolVersion.fromByte 0x31⟩ :=
  ⟨(C6_theorem.1 0x31 [0x99]).mpr ⟨0x99, by decide, by decide⟩,
   (C6_theorem.2.1 0x31 [0x00]).mpr (by decide)⟩

set_option maxRecDepth 8192 in
/-- Claim C7: opcode resolution tries the `Common` set first (second
conjunct); with an unknown version only the eight `Common` opcodes resolve
(first conjunct); with a known version exactly one extended set is tried —
`PreV4` when major < 4, `PostV4` when major ≥ 4 (third and fourth
conjuncts); and in particular `0x43` resolves to `PreV4::Erase` under
version `(3, x)` while under `(4, x)` `0x43` fails and `0x73` resolves to
`PostV4::Write`, not `PreV4::WriteUnprotect` (last three conjuncts). -/
theorem C7_theorem :
    (∀ b : Fin 256, ((ProtocolVersion.unknown.parse_command b.val).isSome = true ↔
      b.val ∈ ([0x00, 0x01, 0x02, 0x11, 0x21, 0x31, 0x44, 0x63] : List Byte)))
    ∧ (∀ (v : ProtocolVersion) (b : Byte) (c : CommonCommand),
      CommonCommand.tryFrom b = some c → v.parse_command b = some (.common c))
    ∧ (∀ (mj mn : Nat) (b : Byte), mj < 4 → CommonCommand.tryFrom b = none →
      (ProtocolVersion.mk (some (mj, mn))).parse_command b =
        (PreV4Command.tryFrom b).map .preV4)
    ∧ (∀ (mj mn : Nat) (b : Byte), 4 ≤ mj → CommonCommand.tryFrom b = none →
      (ProtocolVersion.mk (some (mj, mn))).parse_command b =
        (PostV4Command.tryFrom b).map .postV4)
    ∧ (∀ mn : Nat, (ProtocolVersion.mk (some (3, mn))).parse_command 0x43 =
        some (.preV4 .erase))
    ∧ (∀ mn : Nat, (ProtocolVersion.mk (some (4, mn))).parse_command 0x43 = none)
    ∧ (∀ mn : Nat, (ProtocolVersion.mk (some (4, mn))).parse_command 0x73 =
        some (.postV4 .write)) := by
  refine ⟨by decide, ?_, ?_, ?_, fun mn => rfl, fun mn => rfl, fun mn => rfl⟩
  · intro v b c h
    unfold ProtocolVersion.parse_command
    simp only [h]
  · intro mj mn b hlt hc
    unfold ProtocolVersion.parse_command
    simp only [hc]
    rw [if_pos (show (ProtocolVersion.mk (some (mj, mn))).is_known = true from rfl),
      if_neg (show ¬(ProtocolVersion.mk (some (mj, mn))).is_post_v4 = true by
        simp [ProtocolVersion.is_post_v4]
        omega)]
  · intro mj mn b hge hc
    unfold ProtocolVersion.parse_command
    simp only [hc]
    rw [if_pos (show (ProtocolVersion.mk (some (mj, mn))).is_known = true from rfl),
      if_pos (show (ProtocolVersion.mk (some (mj, mn))).is_post_v4 = true by
        simp [ProtocolVersion.is_post_v4]
        omega)]

/-- Witness for C7: the resolution rules applied at concrete bytes and
versions. -/
theorem C7_witness :
    (ProtocolVersion.mk (some (3, 1))).parse_command 0x00 = some (.common .get)
    ∧ (ProtocolVersion.mk (some (3, 1))).parse_command 0x43 =
      (PreV4Command.tryFrom 0x43).map .preV4
    ∧ (ProtocolVersion.mk (some (4, 0))).parse_command 0x73 =
      (PostV4Command.tryFrom 0x73).map .postV4 :=
  ⟨C7_theorem.2.1 ⟨some (3, 1)⟩ 0x00 .get rfl,
   C7_theorem.2.2.1 3 1 0x43 (by decide) rfl,
   C7_theorem.2.2.2.1 4 0 0x73 (by decide) rfl⟩

/-- Claim C8: a successful `read_memory(address, count)` writes the command
frame, then the address phase as exactly 5 bytes — the 4 big-endian address
bytes followed by their XOR-fold checksum — reading one acknowledgement,
then the count phase as exactly 2 bytes — `count` and its complement —
reading one acknowledgement, then reads and returns exactly `count + 1` raw
bytes, with no trailing-acknowledgement read (the remaining input `rest` is
untouched). -/
theorem C8_theorem (d : StmDevice) (address : Nat) (count : Byte) (data : List Byte)
    (rest : List ReadEvt) (h1 : d.initialised = true) (h5 : d.retry_amount = 5)
    (ha : address < 2 ^ 32) (hc : count < 256) (hlen : data.length = count + 1)
    (h2 : d.input = .byte ACK :: .byte ACK :: .byte ACK :: data.map .byte ++ rest) :
    d.read_memory address count =
      (.ok data,
       { d with
           written := d.written ++ [0x11, 0xEE] ++ (u32BeBytes address ++ [xorFold (u32BeBytes address)]) ++ [count, complByte count],
           input := rest }) :=
  read_memory_run d address count data rest h1 h5 hlen h2

/-- Witness for C8: the spec's example `read_memory(0x08000000, 4)` — 5
address-phase bytes `[0x08, 0x00, 0x00, 0x00, 0x08]`, 2 count-phase bytes
`[0x04, 0xFB]`, and 5 returned bytes. -/
theorem C8_witness :
    (mkDev [.byte ACK, .byte ACK, .byte ACK, .byte 1, .byte 2, .byte 3, .byte 4, .byte 5]).read_memory 0x08000000 4 =
      (.ok [1, 2, 3, 4, 5],
       { mkDev [.byte ACK, .byte ACK, .byte ACK, .byte 1, .byte 2, .byte 3, .byte 4, .byte 5] with
           written := (mkDev [.byte ACK, .byte ACK, .byte ACK, .byte 1, .byte 2, .byte 3, .byte 4, .byte 5]).written ++ [0x11, 0xEE] ++ (u32BeBytes 0x08000000 ++ [xorFold (u32BeBytes 0x08000000)]) ++ [4, complByte 4],
           input := [] }) :=
  C8_theorem (mkDev [.byte ACK, .byte ACK, .byte ACK, .byte 1, .byte 2, .byte 3, .byte 4, .byte 5])
    0x08000000 4 [1, 2, 3, 4, 5] [] rfl rfl (by decide) (by decide) rfl rfl

/-- Claim C9: `initialise` on an uninitialised session writes the wake byte
`0x7F` and then reads responses: every `Nack` is tolerated and reading
continues, an `Ack` completes the one-way transition to initialised (first
conjunct), and any byte that is neither `Ack` nor `Nack` fails the call
with the protocol violation carrying that byte, while `initialised` remains
false (second conjunct). -/
theorem C9_theorem :
    (∀ (d : StmDevice) (n : Nat) (rest : List ReadEvt),
      d.initialised = false →
      d.input = List.replicate n (.byte NACK) ++ .byte ACK :: rest →
      d.initialise =
        (.ok (), { d with written := d.written ++ [0x7F], input := rest, initialised := true }))
    ∧ (∀ (d : StmDevice) (n : Nat) (b : Byte) (rest : List ReadEvt),
      d.initialised = false → b ≠ ACK → b ≠ NACK →
      d.input = List.replicate n (.byte NACK) ++ .byte b :: rest →
      d.initialise =
        (.error (.expectedAck b), { d with written := d.written ++ [0x7F], input := rest })
      ∧ ({ d with written := d.written ++ [0x7F], input := rest } : StmDevice).initialised = false) :=
  ⟨fun d n rest h1 h2 => initialise_ok d n rest h1 h2,
   fun d n b rest h1 hb1 hb2 h2 =>
    ⟨initialise_junk d n b rest h1 hb1 hb2 h2, by simpa using h1⟩⟩

/-- Witness for C9: two Nacks then an Ack initialises; a Nack then the junk
byte `0x42` aborts with `ExpectedAck 0x42` and the session stays
uninitialised. -/
theorem C9_witness :
    (StmDevice.new [.byte NACK, .byte NACK, .byte ACK, .byte 0x07]).initialise =
      (.ok (),
       { StmDevice.new [.byte NACK, .byte NACK, .byte ACK, .byte 0x07] with
           written := (StmDevice.new [.byte NACK, .byte NACK, .byte ACK, .byte 0x07]).written ++ [0x7F],
           input := [.byte 0x07],
           initialised := true })
    ∧ ((StmDevice.new [.byte NACK, .byte 0x42, .byte ACK]).initialise =
        (.error (.expectedAck 0x42),
         { StmDevice.new [.byte NACK, .byte 0x42, .byte ACK] with
             written := (StmDevice.new [.byte NACK, .byte 0x42, .byte ACK]).written ++ [0x7F],
             input := [.byte ACK] })
      ∧ ({ StmDevice.new [.byte NACK, .byte 0x42, .byte ACK] with
             written := (StmDevice.new [.byte NACK, .byte 0x42, .byte ACK]).written ++ [0x7F],
             input := [.byte ACK] } : StmDevice).initialised = false) :=
  ⟨C9_theorem.1 (StmDevice.new [.byte NACK, .byte NACK, .byte ACK, .byte 0x07]) 2 [.byte 0x07]
      rfl rfl,
   C9_theorem.2 (StmDevice.new [.byte NACK, .byte 0x42, .byte ACK]) 1 0x42 [.byte ACK]
      rfl (by decide) (by decide) rfl⟩

/-- Claim C10 (implicit round-trip): whenever `parse_command` resolves a
byte `b` to a command under any protocol version, re-encoding that command
for the wire yields exactly the two bytes `[b, !b]` — resolution followed
by encoding reproduces the original opcode byte. -/
theorem C10_theorem (v : ProtocolVersion) (b : Byte) (cmd : Command)
    (h : v.parse_command b = some cmd) :
    cmd.toBytes = [b, complByte b] := by
  have hb := parse_command_toByte v b cmd h
  rw [Command.toBytes, hb]

/-- Witness for C10: under version `(3, 1)` the byte `0x43` resolves to
`PreV4::Erase`, whose wire frame is `[0x43, !0x43]`. -/
theorem C10_witness :
    (Command.preV4 .erase).toBytes = [0x43, complByte 0x43] :=
  C10_theorem ⟨some (3, 1)⟩ 0x43 (.preV4 .erase) rfl

end Stm
